import Mathlib

/-!
Verification development for the chisel lldb command module
(commands/FBDebugCommands.py).

The module defines five debugger commands: wivar (watchpoint on an
instance variable), binside (address breakpoint inside the current
framework), bmessage (conditional breakpoint on a method resolved
through the class hierarchy), mwarning, and findinstances (memory scan
through an auxiliary library).

The debugger, the expression-evaluation channel (fblldbbase) and the
runtime helpers (fblldbobjcruntimehelpers) are external to the source
file under scrutiny; they are embedded as abstract oracle parameters.
Machine values that the source manipulates as numeric handle strings
are embedded as Nat (class, object and method handles) or Int
(addresses, errno).
-/

/-! ## Method query parsing

The source parses a bmessage expression with the Python regex

  (scope: dash or plus, optional) bracket (target: lazy dot-star)
  (category: open-paren dot-plus close-paren, optional) whitespace-plus
  (selector: greedy dot-star) close-bracket

compiled with re.VERBOSE and applied with re.match (anchored at the
start, the tail of the input need not be consumed).  The functions
below implement exactly this pattern with Python backtracking
semantics: dot matches any character except newline, lazy groups
prefer the shortest extension, greedy groups the longest, and the
optional groups try the present alternative first.
-/

/-- The character class matched by a Python regex whitespace escape
(and by Python strip) on ASCII input: space, tab, newline, carriage
return, vertical tab, form feed. -/
def isPySpace (c : Char) : Bool :=
  c = ' ' || c = '\t' || c = '\n' || c = '\r' || c = '\x0b' || c = '\x0c'

/-- Matches greedy dot-star followed by a literal close bracket,
returning the characters captured by the dot-star.  The rest of the
input after the close bracket is ignored, as under re.match. -/
def selBracket : List Char → Option (List Char)
  | [] => none
  | c :: rest =>
    match (if c = '\n' then none else Option.map (fun r => c :: r) (selBracket rest)) with
    | some r => some r
    | none => if c = ']' then some [] else none

/-- Continuation of the whitespace-plus element after at least one
whitespace character has been consumed: greedily consume further
whitespace, then match the selector and close bracket. -/
def wsSelCont : List Char → Option (List Char)
  | [] => none
  | c :: rest =>
    if isPySpace c then
      match wsSelCont rest with
      | some r => some r
      | none => selBracket (c :: rest)
    else selBracket (c :: rest)

/-- Matches whitespace-plus, then the selector group and the closing
bracket; returns the selector characters. -/
def wsSel : List Char → Option (List Char)
  | [] => none
  | c :: rest => if isPySpace c then wsSelCont rest else none

/-- After the opening parenthesis and the first character of the
category body: matches greedy dot-star, a close parenthesis, and then
the whitespace-selector-bracket tail.  Returns the remaining category
body characters and the selector.  Greedy backtracking: the latest
close parenthesis that lets the tail match wins. -/
def catRest : List Char → Option (List Char × List Char)
  | [] => none
  | c :: rest =>
    match (if c = '\n' then none
           else Option.map (fun r => (c :: r.1, r.2)) (catRest rest)) with
    | some r => some r
    | none =>
      if c = ')' then Option.map (fun s => (([] : List Char), s)) (wsSel rest)
      else none

/-- Matches the full optional-category body: an open parenthesis,
dot-plus, a close parenthesis, then the whitespace-selector tail.
Returns the category group text including its parentheses, and the
selector. -/
def tryCat : List Char → Option (List Char × List Char)
  | [] => none
  | [_] => none
  | c :: d :: rest =>
    if c = '(' then
      if d = '\n' then none
      else Option.map (fun r => (c :: d :: (r.1 ++ [')']), r.2)) (catRest rest)
    else none

/-- The part after the target: an optional category group tried first
(greedy option), else directly the whitespace-selector tail. -/
def catOrWs (l : List Char) : Option (Option (List Char) × List Char) :=
  match tryCat l with
  | some r => some (some r.1, r.2)
  | none => Option.map (fun s => ((none : Option (List Char)), s)) (wsSel l)

/-- The lazy target group: at each position first try to match the
category-or-whitespace continuation (shortest target wins), else
extend the target by one non-newline character. -/
def targetCat : List Char → Option (List Char × Option (List Char) × List Char)
  | [] => Option.map (fun r => (([] : List Char), r.1, r.2)) (catOrWs [])
  | c :: rest =>
    match catOrWs (c :: rest) with
    | some r => some ([], r.1, r.2)
    | none =>
      if c = '\n' then none
      else Option.map (fun r => (c :: r.1, r.2.1, r.2.2)) (targetCat rest)

/-- After the optional scope marker: a literal open bracket, then the
target, category and selector groups. -/
def matchAfterScope : List Char → Option (List Char × Option (List Char) × List Char)
  | '[' :: rest => targetCat rest
  | _ => none

/-- The full pattern on a character list: an optional scope marker
(dash or plus, tried first), then the bracketed body.  If consuming
the scope marker leads to failure the empty alternative is tried, as
regex backtracking does. -/
def methodMatchCore : List Char → Option (Option Char × List Char × Option (List Char) × List Char)
  | [] => none
  | c :: rest =>
    if c = '-' || c = '+' then
      match matchAfterScope rest with
      | some r => some (some c, r)
      | none => Option.map (fun r => ((none : Option Char), r)) (matchAfterScope (c :: rest))
    else Option.map (fun r => ((none : Option Char), r)) (matchAfterScope (c :: rest))

/-- re.match of the bmessage methodPattern against an expression
string: returns the scope character, target, optional category
(including parentheses) and selector. -/
def methodPatternMatch (s : String) :
    Option (Option Char × String × Option String × String) :=
  Option.map
    (fun r => (r.1, String.mk r.2.1, Option.map String.mk r.2.2.1, String.mk r.2.2.2))
    (methodMatchCore s.toList)

/-! ## bmessage: FBMethodBreakpointCommand.run

The runtime helper module and the expression channel are outside the
source file; they appear as the fields of BmsgOracle.  Class, object
and method handles are Nat, with 0 standing for a null handle, so the
int conversion applied by the source to a handle string is the
identity here.  evalObj models fb.evaluateObjectExpression with
printErrors False: none models a falsy result. -/

structure BmsgOracle where
  evalObj : String → Option Nat
  object_getClass : Nat → Nat
  class_getSuperclass : Nat → Nat
  class_getInstanceMethod : Nat → String → Nat
  class_getName : Nat → String
  expressionForSelf : Option String

/-- Translation of classItselfImplementsSelector (the only free
function of the source file): a class is the owner of a selector when
the method fetched at the class is non-null and differs from the
method fetched at its superclass. -/
def classItselfImplementsSelector (o : BmsgOracle) (klass : Nat) (selector : String) : Bool :=
  let thisMethod := o.class_getInstanceMethod klass selector
  if thisMethod = 0 then false
  else
    let superklass := o.class_getSuperclass klass
    let superMethod := o.class_getInstanceMethod superklass selector
    if thisMethod = superMethod then false else true

/-- The hierarchy-ascent while loop of FBMethodBreakpointCommand.run:
while no owner is found and the handle is positive, test the class and
otherwise ascend to its superclass.  The source loop has no bound; the
fuel argument cuts off the recursion, and fuel exhaustion yields none
exactly as an unreachable null handle would. -/
def bmessageAscend (o : BmsgOracle) : Nat → Nat → String → Option Nat
  | 0, _, _ => none
  | fuel + 1, nextClass, selector =>
    if 0 < nextClass then
      if classItselfImplementsSelector o nextClass selector then some nextClass
      else bmessageAscend o fuel (o.class_getSuperclass nextClass) selector
    else none

/-- A breakpoint directive handed to the debugger: binside issues an
address breakpoint, bmessage a fullname breakpoint (category given) or
a name-regex breakpoint (no category), both with a condition. -/
inductive Directive where
  | byAddress (address : Int)
  | byFullName (fullName condition : String)
  | byRegex (pattern condition : String)
deriving DecidableEq

/-- The guard condition carried by a directive, if any. -/
def directiveCondition : Directive → Option String
  | .byAddress _ => none
  | .byFullName _ c => some c
  | .byRegex _ c => some c

/-- Outcome of one bmessage invocation: either a printed failure
message and no directive, or exactly one directive. -/
inductive BmsgOutcome where
  | failed (message : String)
  | issued (directive : Directive)
deriving DecidableEq

def parseFailureMessage : String :=
  "Failed to parse expression. Do you even Objective-C?!"

-- At this point the source formats an undefined name (arch) into the
-- message and would raise NameError; the constant text stands in.
def archFailureMessage : String :=
  "Your architecture is truly fantastic. However, I don\x27t currently support it."

def classFailureMessage (classNameOrExpression : String) : String :=
  "Couldn\x27t find a class from the expression \"" ++ classNameOrExpression ++ "\". Did you typo?"

def selectorFailureMessage (selector : String) : String :=
  "There doesn\x27t seem to be an implementation of " ++ selector ++
    " in the class hierarchy. Made a boo boo with the selector name?"

/-- Translation of FBMethodBreakpointCommand.run: parse the
expression, resolve the target to a class handle, substitute the
metaclass for a class-method query, ascend the hierarchy to the owning
class, and build the conditional breakpoint directive. -/
def FBMethodBreakpointCommand_run (o : BmsgOracle) (fuel : Nat) (expression : String) :
    BmsgOutcome :=
  match methodPatternMatch expression with
  | none => .failed parseFailureMessage
  | some (scopeChar, target, category, selector) =>
    match o.expressionForSelf with
    | none => .failed archFailureMessage
    | some expressionForSelf =>
      let methodIsClassMethod : Bool := scopeChar = some '+'
      let methodTypeCharacter := if methodIsClassMethod then "+" else "-"
      let firstEval := o.evalObj ("(" ++ target ++ ")")
      let targetIsClass := firstEval.isNone
      let targetObject :=
        match firstEval with
        | some h => some h
        | none => o.evalObj ("[" ++ target ++ " class]")
      let targetObjectStr :=
        match targetObject with
        | some h => toString h
        | none => "None"
      match o.evalObj ("[" ++ targetObjectStr ++ " class]") with
      | none => .failed (classFailureMessage target)
      | some tc =>
        if tc = 0 then .failed (classFailureMessage target)
        else
          let targetClass := if methodIsClassMethod then o.object_getClass tc else tc
          match bmessageAscend o fuel targetClass selector with
          | none => .failed (selectorFailureMessage selector)
          | some owner =>
            let breakpointClassName := o.class_getName owner
            let formattedCategory :=
              match category with
              | some c => c
              | none => ""
            let breakpointFullName :=
              methodTypeCharacter ++ "[" ++ breakpointClassName ++ formattedCategory ++
                " " ++ selector ++ "]"
            let breakpointCondition :=
              if targetIsClass then
                "(void*)object_getClass(" ++ expressionForSelf ++ ") == " ++
                  toString targetClass
              else
                "(void*)" ++ expressionForSelf ++ " == " ++ targetObjectStr
            match category with
            | some _ => .issued (.byFullName breakpointFullName breakpointCondition)
            | none =>
              .issued (.byRegex
                (methodTypeCharacter ++ "\\[" ++ breakpointClassName ++
                  "(\\(.+\\))? " ++ selector ++ "\\]")
                breakpointCondition)

/-! ## binside: FBFrameworkAddressBreakpointCommand.run

The source slides the given library-relative address through the
current frame module (an external debugger service, the
resolveFileAddress oracle) and issues an unconditional address
breakpoint. -/

def FBFrameworkAddressBreakpointCommand_run
    (resolveFileAddress : Int → Int) (libraryAddress : Int) : Directive :=
  Directive.byAddress (resolveFileAddress libraryAddress)

/-! ## wivar: FBWatchInstanceVariableCommand.run -/

/-- The watch request handed to the debugger by WatchAddress: an
address, a byte size, and the read/write flags (False, True in the
source). -/
structure WatchRequest where
  address : Int
  size : Int
  read : Bool
  write : Bool
deriving DecidableEq

/-- The expression channel as used by wivar: both evaluators return
the already int-converted value, since the source wraps every call in
an int round trip. -/
structure WatchOracle where
  evaluateObjectExpression : String → Int
  evaluateExpression : String → Int

/-- The ivar offset round-trip expression built by the source. -/
def ivarOffsetCommand (objectAddress : Int) (ivarName : String) : String :=
  "(ptrdiff_t)ivar_getOffset((void*)object_getInstanceVariable((id)" ++
    toString objectAddress ++ ", \"" ++ ivarName ++ "\", 0))"

/-- The multi-statement ivar size round-trip expression built by the
source. -/
def ivarSizeCommand (objectAddress : Int) (ivarName : String) : String :=
  "unsigned int size = 0;" ++
    "char *typeEncoding = (char *)ivar_getTypeEncoding((void*)class_getInstanceVariable((Class)object_getClass((id)" ++
    toString objectAddress ++ "), \"" ++ ivarName ++ "\"));" ++
    "(char *)NSGetSizeAndAlignment(typeEncoding, &size, 0);" ++
    "size"

/-- Translation of FBWatchInstanceVariableCommand.run up to the
WatchAddress call: resolve the object address, the ivar offset and the
ivar size, and pass the watch request to the debugger.  The source
performs no check on any of the three values; afterwards it only
prints a message depending on the debugger error, which no claim
concerns. -/
def FBWatchInstanceVariableCommand_run
    (o : WatchOracle) (commandForObject ivarName : String) : WatchRequest :=
  let objectAddress := o.evaluateObjectExpression commandForObject
  let ivarOffset := o.evaluateExpression (ivarOffsetCommand objectAddress ivarName)
  let ivarSize := o.evaluateExpression (ivarSizeCommand objectAddress ivarName)
  ⟨objectAddress + ivarOffset, ivarSize, false, true⟩

/-! ## findinstances: FBFindInstancesCommand -/

/-- Python strip on a string: drop the whitespace characters from both
ends. -/
def pyStrip (s : String) : String :=
  String.mk (((s.toList.dropWhile isPySpace).reverse.dropWhile isPySpace).reverse)

/-- Python split with separator a single space and maxsplit one, as
applied to the findinstances argument: the part before the first
space, and, when a space occurs, the part after it. -/
def splitOnce : List Char → List Char × Option (List Char)
  | [] => ([], none)
  | ' ' :: rest => ([], some rest)
  | c :: rest =>
    let r := splitOnce rest
    (c :: r.1, r.2)

/-- The predicate-escaping substitution of FBFindInstancesCommand.run.
The sub pattern written in the source is a Python string literal whose
regex is a character class containing only the double quote (the
backslash in the literal merely escapes the quote), so only double
quotes receive a backslash prefix; a backslash in the predicate passes
through unchanged, despite the adjacent source comment announcing that
backslashes are escaped too. -/
def escapePredicateChars : List Char → List Char
  | [] => []
  | c :: rest =>
    if c = '"' then '\\' :: c :: escapePredicateChars rest
    else c :: escapePredicateChars rest

/-- String form of the escaping substitution. -/
def escapePredicate (s : String) : String :=
  String.mk (escapePredicateChars s.toList)

/-- Modelled from the spec: the receiving side of the formatted
PrintInstances call parses the embedded text as a string literal,
undoing one level of backslash escaping.  That parser is not part of
the source file (it lives in the target-language compiler behind the
expression channel); following the description in the spec it consumes
characters until an unescaped double quote, an escaped character
standing for itself, and returns the literal body together with the
input remaining after the closing quote. -/
def parseStringLiteralBody : List Char → Option (List Char × List Char)
  | [] => none
  | '"' :: rest => some ([], rest)
  | '\\' :: c :: rest =>
    Option.map (fun r => (c :: r.1, r.2)) (parseStringLiteralBody rest)
  | c :: rest =>
    Option.map (fun r => (c :: r.1, r.2)) (parseStringLiteralBody rest)

/-- Everything external that FBFindInstancesCommand consults: the
debugger module table, the file system, the environment variable, the
dynamic loader round trips and the install directory of the module. -/
structure ChiselEnv where
  moduleLoadedBefore : Bool
  moduleLoadedAfter : Bool
  envPath : Option String
  fsExists : String → Bool
  dlopenUnsigned : String → Nat
  errnoValue : Int
  dlerrorUnsigned : Nat
  dlerrorSummary : String
  strerrorUnsigned : Int → Nat
  strerrorSummary : Int → String
  sourceDir : String

/-- os.path.join for one relative component. -/
def osPathJoin (a b : String) : String :=
  if a = "" then b
  else if a.toList.getLast? = some '/' then a ++ b
  else a ++ "/" ++ b

/-- The default library path of chiselLibraryPath: the directory of
the source module joined with two parent steps and the fixed relative
subpath lib/Chisel.framework/Chisel. -/
def defaultChiselPath (sourceDir : String) : String :=
  osPathJoin (osPathJoin (osPathJoin (osPathJoin (osPathJoin sourceDir ("..")) ("..")) ("lib"))
    ("Chisel.framework")) ("Chisel")

/-- Translation of FBFindInstancesCommand.chiselLibraryPath: the
environment override is returned only when it is truthy and exists on
disk; otherwise the default path is returned. -/
def chiselLibraryPath (envPath : Option String) (fsExists : String → Bool)
    (sourceDir : String) : String :=
  match envPath with
  | some p => if p ≠ "" && fsExists p then p else defaultChiselPath sourceDir
  | none => defaultChiselPath sourceDir

/-- The dlopen expression formatted by loadChiselIfNecessary. -/
def dlopenCall (path : String) : String :=
  "(void*)dlopen(\"" ++ path ++ "\", 2)"

def codesignErrorMessage : String :=
  "Error loading Chisel: Code signing failure; Must re-run codesign"

def unknownLoadErrorMessage : String :=
  "Unknown error loading Chisel"

/-- Translation of FBFindInstancesCommand.loadChiselIfNecessary:
returns whether the library is loaded, together with the diagnostic
printed on failure.  The branch order of the source: module already
present; library file missing; dlopen succeeded or module now present;
errno equals 50 (code-signing failure); dlerror non-null; errno
non-zero (decoded through strerror, with a numeric fallback when
strerror is null); otherwise unknown. -/
def loadChiselIfNecessary (e : ChiselEnv) : Bool × Option String :=
  if e.moduleLoadedBefore then (true, none)
  else
    let path := chiselLibraryPath e.envPath e.fsExists e.sourceDir
    if !(e.fsExists path) then (false, some ("Chisel library missing: " ++ path))
    else if e.dlopenUnsigned (dlopenCall path) ≠ 0 || e.moduleLoadedAfter then (true, none)
    else if e.errnoValue = 50 then (false, some codesignErrorMessage)
    else if e.dlerrorUnsigned ≠ 0 then
      (false, some ("Error loading Chisel: " ++ e.dlerrorSummary))
    else if e.errnoValue ≠ 0 then
      if e.strerrorUnsigned e.errnoValue ≠ 0 then
        (false, some ("Error loading Chisel: " ++ e.strerrorSummary e.errnoValue))
      else (false, some ("Error loading Chisel (errno " ++ toString e.errnoValue ++ ")"))
    else (false, some unknownLoadErrorMessage)

/-- Translation of FBFindInstancesCommand.run: load the library if
necessary, unpack the single argument into query and optional
predicate, escape the predicate, and forward the formatted
PrintInstances call through the expression channel.  The returned
value is the forwarded call, or none when nothing is forwarded (load
failure or empty argument). -/
def FBFindInstancesCommand_run (e : ChiselEnv) (argument : String) : Option String :=
  if !(loadChiselIfNecessary e).1 then none
  else if pyStrip argument = "" then none
  else
    let args := splitOnce (pyStrip argument).toList
    let query := String.mk args.1
    let predicate :=
      match args.2 with
      | some rest => escapePredicate (pyStrip (String.mk rest))
      | none => ""
    some ("(void)PrintInstances(\"" ++ query ++ "\", \"" ++ predicate ++ "\")")

/-! ## Concrete scenarios used by witnesses and counterexamples -/

/-- A synthetic three-class hierarchy: class 3 inherits from 2, class
2 from 1, class 1 is the root; the selector S is provided only by the
root, so the runtime lookup returns the same method handle 7 from
every class of the chain and the null method from the null class. -/
def abcOracle : BmsgOracle where
  evalObj := fun _ => none
  object_getClass := fun _ => 0
  class_getSuperclass := fun n => if n = 3 then 2 else if n = 2 then 1 else 0
  class_getInstanceMethod := fun c s =>
    if (c = 1 || c = 2 || c = 3) && s = "S" then 7 else 0
  class_getName := fun _ => "A"
  expressionForSelf := some ("(id)$arg1")

/-- The class-method scenario of the spec: MyView resolves to class
handle 10 with metaclass 20; the metaclass of the ancestor BaseView is
21 and roots the metaclass chain; the class method is visible from
both metaclasses with handle 9, so only 21 owns it. -/
def myViewOracle : BmsgOracle where
  evalObj := fun s =>
    if s = "(MyView)" then none
    else if s = "[MyView class]" then some 10
    else if s = "[10 class]" then some 10
    else none
  object_getClass := fun n => if n = 10 then 20 else 0
  class_getSuperclass := fun n => if n = 20 then 21 else 0
  class_getInstanceMethod := fun c s =>
    if (c = 20 || c = 21) && s = "awesomeClassMethod" then 9 else 0
  class_getName := fun n => if n = 21 then "BaseView" else "MyView"
  expressionForSelf := some ("(id)$arg1")

/-- An instance-target scenario: the expression 0x1234 evaluates to
object handle 5 whose class 6 itself implements setFrame:. -/
def instanceOracle : BmsgOracle where
  evalObj := fun s =>
    if s = "(0x1234)" then some 5
    else if s = "[5 class]" then some 6
    else none
  object_getClass := fun _ => 0
  class_getSuperclass := fun _ => 0
  class_getInstanceMethod := fun c _ => if c = 6 then 3 else 0
  class_getName := fun _ => "UIView"
  expressionForSelf := some ("(id)$arg1")

/-- A scenario in which no class of the target hierarchy implements
the selector: the class-name target MyView does not evaluate as an
object and resolves through the class path to handle 10, whose chain
is 10, then 11, then null; neither 10 nor 11 implements the selector,
while the unrelated class 99 outside the chain does. -/
def noImplOracle : BmsgOracle where
  evalObj := fun s =>
    if s = "(MyView)" then none
    else if s = "[MyView class]" then some 10
    else if s = "[10 class]" then some 10
    else none
  object_getClass := fun _ => 0
  class_getSuperclass := fun n => if n = 10 then 11 else 0
  class_getInstanceMethod := fun c _ => if c = 99 then 4 else 0
  class_getName := fun _ => "MyView"
  expressionForSelf := some ("(id)$arg1")

/-- A wivar scenario for a nonexistent ivar: the object expression
evaluates to address 4096 and both resolution round trips return 0. -/
def zeroIvarOracle : WatchOracle where
  evaluateObjectExpression := fun _ => 4096
  evaluateExpression := fun _ => 0

/-- A load-failure scenario: the library file exists, dlopen returns
null, the module does not appear afterwards, and errno is 50. -/
def codesignEnv : ChiselEnv where
  moduleLoadedBefore := false
  moduleLoadedAfter := false
  envPath := none
  fsExists := fun _ => true
  dlopenUnsigned := fun _ => 0
  errnoValue := 50
  dlerrorUnsigned := 0
  dlerrorSummary := ""
  strerrorUnsigned := fun _ => 1
  strerrorSummary := fun _ => "Undefined error: 0"
  sourceDir := "/opt/chisel/libexec/commands"

/-! ## Lemmas about the method query matcher -/

theorem selBracket_append_close (sel : List Char) (h : ∀ c ∈ sel, c ≠ '\n') :
    selBracket (sel ++ [']']) = some sel := by
  induction sel with
  | nil => decide
  | cons c tl ih =>
    have hc : c ≠ '\n' := h c (List.mem_cons_self ..)
    have ih' := ih fun d hd => h d (List.mem_cons_of_mem _ hd)
    simp [selBracket, hc, ih']

theorem wsSelCont_exact (sel : List Char) (hn : ∀ c ∈ sel, c ≠ '\n')
    (hh : ∀ c, sel.head? = some c → isPySpace c = false) :
    wsSelCont (sel ++ [']']) = some sel := by
  cases sel with
  | nil => decide
  | cons c tl =>
    have hsp : isPySpace c = false := hh c rfl
    have := selBracket_append_close (c :: tl) hn
    simp only [List.cons_append] at this ⊢
    simp [wsSelCont, hsp, this]

theorem wsSel_space (sel : List Char) (hn : ∀ c ∈ sel, c ≠ '\n')
    (hh : ∀ c, sel.head? = some c → isPySpace c = false) :
    wsSel (' ' :: (sel ++ [']'])) = some sel := by
  simp [wsSel, show isPySpace ' ' = true from rfl, wsSelCont_exact sel hn hh]

theorem wsSel_not_space (c : Char) (l : List Char) (h : isPySpace c = false) :
    wsSel (c :: l) = none := by
  simp [wsSel, h]

theorem catRest_no_close (l : List Char) (h : ∀ c ∈ l, c ≠ ')') : catRest l = none := by
  induction l with
  | nil => rfl
  | cons c tl ih =>
    have hc : c ≠ ')' := h c (List.mem_cons_self ..)
    have ih' := ih fun d hd => h d (List.mem_cons_of_mem _ hd)
    simp [catRest, hc, ih']

theorem catRest_cons_eq (c : Char) (rest : List Char) :
    catRest (c :: rest) =
      match (if c = '\n' then none
             else Option.map (fun r => (c :: r.1, r.2)) (catRest rest)) with
      | some r => some r
      | none =>
        if c = ')' then Option.map (fun s => (([] : List Char), s)) (wsSel rest)
        else none := rfl

theorem catRest_exact (cat sel : List Char)
    (hcat : ∀ c ∈ cat, c ≠ '\n')
    (hseln : ∀ c ∈ sel, c ≠ '\n')
    (hselp : ∀ c ∈ sel, c ≠ ')')
    (hh : ∀ c, sel.head? = some c → isPySpace c = false) :
    catRest (cat ++ ')' :: ' ' :: (sel ++ [']'])) = some (cat, sel) := by
  induction cat with
  | nil =>
    have h1 : catRest (' ' :: (sel ++ [']'])) = none := by
      apply catRest_no_close
      intro c hc
      rcases List.mem_cons.1 hc with h | h
      · subst h; decide
      · rcases List.mem_append.1 h with h | h
        · exact hselp c h
        · simp only [List.mem_singleton] at h; subst h; decide
    rw [List.nil_append, catRest_cons_eq, h1]
    simp [wsSel_space sel hseln hh]
  | cons c tl ih =>
    have hc : c ≠ '\n' := hcat c (List.mem_cons_self ..)
    have ih' := ih fun d hd => hcat d (List.mem_cons_of_mem _ hd)
    rw [List.cons_append, catRest_cons_eq, ih']
    simp [hc]

theorem tryCat_exact (d : Char) (cattl sel : List Char)
    (hd : d ≠ '\n') (hcat : ∀ c ∈ cattl, c ≠ '\n')
    (hseln : ∀ c ∈ sel, c ≠ '\n')
    (hselp : ∀ c ∈ sel, c ≠ ')')
    (hh : ∀ c, sel.head? = some c → isPySpace c = false) :
    tryCat ('(' :: d :: (cattl ++ ')' :: ' ' :: (sel ++ [']']))) =
      some ('(' :: d :: (cattl ++ [')']), sel) := by
  simp [tryCat, hd, catRest_exact cattl sel hcat hseln hselp hh]

theorem tryCat_not_open (c : Char) (l : List Char) (h : c ≠ '(') :
    tryCat (c :: l) = none := by
  cases l with
  | nil => rfl
  | cons d rest => simp [tryCat, h]

theorem catOrWs_nonmatching (c : Char) (l : List Char)
    (hp : c ≠ '(') (hs : isPySpace c = false) : catOrWs (c :: l) = none := by
  simp [catOrWs, tryCat_not_open c l hp, wsSel_not_space c l hs]

theorem catOrWs_ws (sel : List Char) (hn : ∀ c ∈ sel, c ≠ '\n')
    (hh : ∀ c, sel.head? = some c → isPySpace c = false) :
    catOrWs (' ' :: (sel ++ [']'])) = some (none, sel) := by
  have ht : tryCat (' ' :: (sel ++ [']'])) = none := tryCat_not_open _ _ (by decide)
  simp [catOrWs, ht, wsSel_space sel hn hh]

theorem catOrWs_cat (d : Char) (cattl sel : List Char)
    (hd : d ≠ '\n') (hcat : ∀ c ∈ cattl, c ≠ '\n')
    (hseln : ∀ c ∈ sel, c ≠ '\n')
    (hselp : ∀ c ∈ sel, c ≠ ')')
    (hh : ∀ c, sel.head? = some c → isPySpace c = false) :
    catOrWs ('(' :: d :: (cattl ++ ')' :: ' ' :: (sel ++ [']']))) =
      some (some ('(' :: d :: (cattl ++ [')'])), sel) := by
  simp [catOrWs, tryCat_exact d cattl sel hd hcat hseln hselp hh]

theorem targetCat_cons_eq (c : Char) (rest : List Char) :
    targetCat (c :: rest) =
      match catOrWs (c :: rest) with
      | some r => some ([], r.1, r.2)
      | none =>
        if c = '\n' then none
        else Option.map (fun r => (c :: r.1, r.2.1, r.2.2)) (targetCat rest) := rfl

theorem targetCat_exact (t sel : List Char)
    (ht : ∀ c ∈ t, isPySpace c = false ∧ c ≠ '(' ∧ c ≠ '\n')
    (hn : ∀ c ∈ sel, c ≠ '\n')
    (hh : ∀ c, sel.head? = some c → isPySpace c = false) :
    targetCat (t ++ ' ' :: (sel ++ [']'])) = some (t, none, sel) := by
  induction t with
  | nil =>
    rw [List.nil_append, targetCat_cons_eq, catOrWs_ws sel hn hh]
  | cons c tl ih =>
    obtain ⟨h1, h2, h3⟩ := ht c (List.mem_cons_self ..)
    have ih' := ih fun d hd => ht d (List.mem_cons_of_mem _ hd)
    rw [List.cons_append, targetCat_cons_eq, catOrWs_nonmatching c _ h2 h1, ih']
    simp [h3]

theorem targetCat_category (t : List Char) (d : Char) (cattl sel : List Char)
    (ht : ∀ c ∈ t, isPySpace c = false ∧ c ≠ '(' ∧ c ≠ '\n')
    (hd : d ≠ '\n') (hcat : ∀ c ∈ cattl, c ≠ '\n')
    (hseln : ∀ c ∈ sel, c ≠ '\n')
    (hselp : ∀ c ∈ sel, c ≠ ')')
    (hh : ∀ c, sel.head? = some c → isPySpace c = false) :
    targetCat (t ++ '(' :: d :: (cattl ++ ')' :: ' ' :: (sel ++ [']']))) =
      some (t, some ('(' :: d :: (cattl ++ [')'])), sel) := by
  induction t with
  | nil =>
    rw [List.nil_append, targetCat_cons_eq,
      catOrWs_cat d cattl sel hd hcat hseln hselp hh]
  | cons c tl ih =>
    obtain ⟨h1, h2, h3⟩ := ht c (List.mem_cons_self ..)
    have ih' := ih fun e he => ht e (List.mem_cons_of_mem _ he)
    rw [List.cons_append, targetCat_cons_eq, catOrWs_nonmatching c _ h2 h1, ih']
    simp [h3]

theorem methodMatchCore_scope (c : Char) (l : List Char) (hc : c = '-' ∨ c = '+')
    (r : List Char × Option (List Char) × List Char) (hr : targetCat l = some r) :
    methodMatchCore (c :: '[' :: l) = some (some c, r) := by
  have hb : (c = '-' || c = '+') = true := by
    rcases hc with h | h <;> simp [h]
  simp [methodMatchCore, hb, matchAfterScope, hr]

theorem methodMatchCore_noscope (l : List Char)
    (r : List Char × Option (List Char) × List Char) (hr : targetCat l = some r) :
    methodMatchCore ('[' :: l) = some (none, r) := by
  simp [methodMatchCore, show (('[' : Char) = '-' || ('[' : Char) = '+') = false from rfl,
    matchAfterScope, hr]

/-- Claim C2, counterexample: the bmessage parse step does not extract
a nested-bracket target intact when the target contains whitespace.
For the well-formed method reference with target [UIView alloc] and
selector init, the lazy target group stops at the first whitespace:
the extracted target is [UIView and the selector is alloc] init. -/
theorem methodQueryParseNestedBracketCounterexample :
    methodPatternMatch ("-[[UIView alloc] init]") =
      some (some '-', "[UIView", none, "alloc] init") ∧
    ("[UIView" : String) ≠ "[UIView alloc]" := ⟨by decide, by decide⟩

/-- Claim C2 (amended): for well-formed method references whose target
contains no whitespace, no open parenthesis and no newline (this
includes raw hexadecimal addresses and nested brackets without inner
whitespace), and whose selector does not start with whitespace and
contains no newline, the parse step extracts scope, target and
selector exactly with no category; parsing -[0x10020 setFrame:]
yields scope instance, target 0x10020, no category, selector
setFrame:.  With a parenthesized category (newline-free, nonempty,
selector additionally free of close parentheses) all four fields are
extracted exactly.  A target containing internal whitespace is instead
split at its first whitespace run. -/
theorem methodQueryParseExactAmended :
    (∀ scp t sel : String,
      (scp = "" ∨ scp = "-" ∨ scp = "+") →
      (∀ c ∈ t.toList, isPySpace c = false ∧ c ≠ '(' ∧ c ≠ '\n') →
      (∀ c ∈ sel.toList, c ≠ '\n') →
      (∀ c, sel.toList.head? = some c → isPySpace c = false) →
      methodPatternMatch (scp ++ "[" ++ t ++ " " ++ sel ++ "]") =
        some (scp.toList.head?, t, none, sel)) ∧
    (∀ scp t cat sel : String,
      (scp = "" ∨ scp = "-" ∨ scp = "+") →
      (∀ c ∈ t.toList, isPySpace c = false ∧ c ≠ '(' ∧ c ≠ '\n') →
      cat.toList ≠ [] →
      (∀ c ∈ cat.toList, c ≠ '\n') →
      (∀ c ∈ sel.toList, c ≠ '\n') →
      (∀ c ∈ sel.toList, c ≠ ')') →
      (∀ c, sel.toList.head? = some c → isPySpace c = false) →
      methodPatternMatch (scp ++ "[" ++ t ++ "(" ++ cat ++ ") " ++ sel ++ "]") =
        some (scp.toList.head?, t, some ("(" ++ cat ++ ")"), sel)) := by
  constructor
  · intro scp t sel hscp ht hn hh
    have hcore := targetCat_exact t.toList sel.toList ht hn hh
    have hdata : (scp ++ "[" ++ t ++ " " ++ sel ++ "]").toList =
        scp.toList ++ '[' :: (t.toList ++ ' ' :: (sel.toList ++ [']'])) := by
      show (scp ++ "[" ++ t ++ " " ++ sel ++ "]").data =
        scp.data ++ '[' :: (t.data ++ ' ' :: (sel.data ++ [']']))
      simp [String.data_append, show ("[" : String).data = ['['] from rfl,
        show (" " : String).data = [' '] from rfl,
        show ("]" : String).data = [']'] from rfl]
    rcases hscp with h | h | h <;> subst h
    · simp only [methodPatternMatch, hdata]
      rw [show ("" : String).toList = [] from rfl, List.nil_append,
        methodMatchCore_noscope _ _ hcore]
      rfl
    · simp only [methodPatternMatch, hdata]
      rw [show ("-" : String).toList = ['-'] from rfl, List.cons_append, List.nil_append,
        methodMatchCore_scope '-' _ (Or.inl rfl) _ hcore]
      rfl
    · simp only [methodPatternMatch, hdata]
      rw [show ("+" : String).toList = ['+'] from rfl, List.cons_append, List.nil_append,
        methodMatchCore_scope '+' _ (Or.inr rfl) _ hcore]
      rfl
  · intro scp t cat sel hscp ht hcne hcat hn hp hh
    obtain ⟨d, cattl, hdc⟩ : ∃ d tl, cat.toList = d :: tl := by
      cases hx : cat.toList with
      | nil => exact absurd hx hcne
      | cons d tl => exact ⟨d, tl, rfl⟩
    have hd : d ≠ '\n' := hcat d (by rw [hdc]; exact List.mem_cons_self ..)
    have hcattl : ∀ c ∈ cattl, c ≠ '\n' := fun c hc =>
      hcat c (by rw [hdc]; exact List.mem_cons_of_mem _ hc)
    have hcore := targetCat_category t.toList d cattl sel.toList ht hd hcattl hn hp hh
    have hdata : (scp ++ "[" ++ t ++ "(" ++ cat ++ ") " ++ sel ++ "]").toList =
        scp.toList ++ '[' :: (t.toList ++ '(' :: d ::
          (cattl ++ ')' :: ' ' :: (sel.toList ++ [']']))) := by
      show (scp ++ "[" ++ t ++ "(" ++ cat ++ ") " ++ sel ++ "]").data =
        scp.data ++ '[' :: (t.data ++ '(' :: d ::
          (cattl ++ ')' :: ' ' :: (sel.data ++ [']'])))
      simp [String.data_append, show ("[" : String).data = ['['] from rfl,
        show ("(" : String).data = ['('] from rfl,
        show (") " : String).data = [')', ' '] from rfl,
        show ("]" : String).data = [']'] from rfl,
        show cat.data = d :: cattl from hdc]
    have hcatstr : ("(" ++ cat ++ ")" : String) = String.mk ('(' :: d :: (cattl ++ [')'])) := by
      apply String.ext
      show ("(" ++ cat ++ ")" : String).data = '(' :: d :: (cattl ++ [')'])
      simp [String.data_append, show ("(" : String).data = ['('] from rfl,
        show (")" : String).data = [')'] from rfl,
        show cat.data = d :: cattl from hdc]
    rcases hscp with h | h | h <;> subst h
    · simp only [methodPatternMatch, hdata]
      rw [show ("" : String).toList = [] from rfl, List.nil_append,
        methodMatchCore_noscope _ _ hcore]
      simp [hcatstr]
    · simp only [methodPatternMatch, hdata]
      rw [show ("-" : String).toList = ['-'] from rfl, List.cons_append, List.nil_append,
        methodMatchCore_scope '-' _ (Or.inl rfl) _ hcore]
      simp [hcatstr]
    · simp only [methodPatternMatch, hdata]
      rw [show ("+" : String).toList = ['+'] from rfl, List.cons_append, List.nil_append,
        methodMatchCore_scope '+' _ (Or.inr rfl) _ hcore]
      simp [hcatstr]

/-- Claim C2, witness: the amended theorem applied to the example of
the spec. -/
theorem methodQueryParseExactAmendedWitness :
    methodPatternMatch ("-[0x10020 setFrame:]") =
      some (some '-', "0x10020", none, "setFrame:") := by
  have h := methodQueryParseExactAmended.1 ("-") ("0x10020") ("setFrame:")
    (Or.inr (Or.inl rfl)) (by decide) (by decide) (by decide)
  exact h

/-! ## Lemmas about hierarchy ascent -/

theorem bmessageAscend_succ (o : BmsgOracle) (f c : Nat) (sel : String) :
    bmessageAscend o (f + 1) c sel =
      if 0 < c then
        if classItselfImplementsSelector o c sel then some c
        else bmessageAscend o f (o.class_getSuperclass c) sel
      else none := rfl

theorem bmessageAscend_zero_class (o : BmsgOracle) (fuel : Nat) (sel : String) :
    bmessageAscend o fuel 0 sel = none := by
  cases fuel <;> simp [bmessageAscend]

theorem bmessageAscend_none_of_chain (o : BmsgOracle) (sel : String) (root n : Nat)
    (hchain : ∀ i, i < n →
      classItselfImplementsSelector o ((o.class_getSuperclass)^[i] root) sel = false)
    (hnull : (o.class_getSuperclass)^[n] root = 0) :
    ∀ fuel, bmessageAscend o fuel root sel = none := by
  have main : ∀ fuel i, i ≤ n →
      bmessageAscend o fuel ((o.class_getSuperclass)^[i] root) sel = none := by
    intro fuel
    induction fuel with
    | zero => intro i _; rfl
    | succ f ih =>
      intro i hi
      rcases Nat.eq_zero_or_pos ((o.class_getSuperclass)^[i] root) with hz | hpos
      · rw [hz, bmessageAscend_zero_class]
      · have hilt : i < n := by
          rcases Nat.lt_or_ge i n with hlt | hge
          · exact hlt
          · exfalso
            have hieq : i = n := le_antisymm hi hge
            subst hieq
            rw [hnull] at hpos
            exact absurd hpos (lt_irrefl 0)
        have hit : o.class_getSuperclass ((o.class_getSuperclass)^[i] root) =
            (o.class_getSuperclass)^[i + 1] root :=
          (Function.iterate_succ_apply' _ _ _).symm
        rw [bmessageAscend_succ, if_pos hpos, hchain i hilt, if_neg (by simp), hit]
        exact ih (i + 1) hilt
  intro fuel
  have h0 := main fuel 0 (Nat.zero_le n)
  rwa [Function.iterate_zero_apply] at h0

/-- Claim C1: in a hierarchy where class C inherits from B, B from A,
A is the root, and the selector S is provided only by A (so the
runtime lookup returns the same non-null method m from A, B and C, and
the null method from the null class), the hierarchy-ascent loop
started at C returns A: at C and at B the fetched implementation
equals the one fetched at the superclass, so the loop ascends, and at
A the superclass lookup is null while the own lookup is not, so A is
the owner. -/
theorem hierarchyAscentFindsOwnerABC (o : BmsgOracle) (S : String)
    (A B C m fuel : Nat)
    (hfuel : 3 ≤ fuel)
    (hA : 0 < A) (hB : 0 < B) (hC : 0 < C) (hm : m ≠ 0)
    (hsC : o.class_getSuperclass C = B)
    (hsB : o.class_getSuperclass B = A)
    (hsA : o.class_getSuperclass A = 0)
    (hiC : o.class_getInstanceMethod C S = m)
    (hiB : o.class_getInstanceMethod B S = m)
    (hiA : o.class_getInstanceMethod A S = m)
    (hi0 : o.class_getInstanceMethod 0 S = 0) :
    bmessageAscend o fuel C S = some A := by
  obtain ⟨k, rfl⟩ : ∃ k, fuel = k + 1 + 1 + 1 := ⟨fuel - 3, by omega⟩
  have hCimp : classItselfImplementsSelector o C S = false := by
    simp [classItselfImplementsSelector, hiC, hsC, hiB]
  have hBimp : classItselfImplementsSelector o B S = false := by
    simp [classItselfImplementsSelector, hiB, hsB, hiA]
  have hAimp : classItselfImplementsSelector o A S = true := by
    simp [classItselfImplementsSelector, hiA, hsA, hi0, hm]
  rw [bmessageAscend_succ, if_pos hC, hCimp, if_neg (by simp), hsC,
    bmessageAscend_succ, if_pos hB, hBimp, if_neg (by simp), hsB,
    bmessageAscend_succ, if_pos hA, hAimp, if_pos (by simp)]

/-- Claim C1, witness: the three-class scenario with handles 1, 2, 3
and method handle 7, started at class 3 with fuel 3, returns the
root class 1. -/
theorem hierarchyAscentFindsOwnerABCWitness :
    bmessageAscend abcOracle 3 3 ("S") = some 1 := by
  exact hierarchyAscentFindsOwnerABC abcOracle ("S") 1 2 3 7 3 (by omega)
    (by decide) (by decide) (by decide) (by decide) (by decide) (by decide)
    (by decide) (by decide) (by decide) (by decide) (by decide)

/-- Claim C8: when iterating the superclass function n times from the
start class reaches the null handle (a finite acyclic chain of depth
at most n), the ascent loop is already stable at fuel n: any larger
fuel returns the same result, i.e. the loop terminates within the
hierarchy depth, each iteration either stopping with an owner or
strictly advancing to the superclass, and exiting at the null
handle. -/
theorem hierarchyAscentFuelStable (o : BmsgOracle) (sel : String) :
    ∀ (n c : Nat), (o.class_getSuperclass)^[n] c = 0 →
      ∀ m, n ≤ m → bmessageAscend o m c sel = bmessageAscend o n c sel := by
  intro n
  induction n with
  | zero =>
    intro c h m _
    rw [Function.iterate_zero_apply] at h
    subst h
    rw [bmessageAscend_zero_class, bmessageAscend_zero_class]
  | succ n ih =>
    intro c h m hm
    obtain ⟨m', rfl⟩ : ∃ m', m = m' + 1 := ⟨m - 1, by omega⟩
    have hm' : n ≤ m' := by omega
    rw [Function.iterate_succ_apply] at h
    rcases Nat.eq_zero_or_pos c with hc | hc
    · subst hc
      rw [bmessageAscend_zero_class, bmessageAscend_zero_class]
    · rw [bmessageAscend_succ, bmessageAscend_succ, if_pos hc, if_pos hc,
        ih (o.class_getSuperclass c) h m' hm']

/-- Claim C8, witness: in the three-class scenario the superclass
chain from class 3 reaches the null handle in three steps, and the
loop result with any larger fuel, here 10, agrees with the result at
fuel 3. -/
theorem hierarchyAscentFuelStableWitness :
    (abcOracle.class_getSuperclass)^[3] 3 = 0 ∧
    bmessageAscend abcOracle 10 3 ("S") = bmessageAscend abcOracle 3 3 ("S") := by
  refine ⟨by decide, ?_⟩
  exact hierarchyAscentFuelStable abcOracle ("S") 3 3 (by decide) 10 (by omega)

/-- Claim C7: for a bmessage query whose target resolves to a class
(through either source path: the target evaluates as an object, or it
fails to and is treated as a class name), when no class of the target
hierarchy itself implements the selector (every class on the
superclass chain from the ascent root down to the null handle fails
the ownership test, regardless of classes outside the chain), the
command reports the selector resolution failure and issues no
breakpoint directive of any kind. -/
theorem selectorNotFoundNoDirective (o : BmsgOracle) (fuel : Nat)
    (expr : String) (sc : Option Char) (tgt : String) (cat : Option String)
    (sel selfE : String) (tc n : Nat)
    (hparse : methodPatternMatch expr = some (sc, tgt, cat, sel))
    (hself : o.expressionForSelf = some selfE)
    (hres : (∃ h, o.evalObj ("(" ++ tgt ++ ")") = some h ∧
              o.evalObj ("[" ++ toString h ++ " class]") = some tc) ∨
            (o.evalObj ("(" ++ tgt ++ ")") = none ∧
             ∃ h, o.evalObj ("[" ++ tgt ++ " class]") = some h ∧
              o.evalObj ("[" ++ toString h ++ " class]") = some tc))
    (htc : tc ≠ 0)
    (hchain : ∀ i, i < n → classItselfImplementsSelector o
      ((o.class_getSuperclass)^[i]
        (if sc = some '+' then o.object_getClass tc else tc)) sel = false)
    (hnull : (o.class_getSuperclass)^[n]
      (if sc = some '+' then o.object_getClass tc else tc) = 0) :
    FBMethodBreakpointCommand_run o fuel expr = .failed (selectorFailureMessage sel) ∧
    ∀ d, FBMethodBreakpointCommand_run o fuel expr ≠ .issued d := by
  have hasc := bmessageAscend_none_of_chain o sel _ n hchain hnull
  have hrun : FBMethodBreakpointCommand_run o fuel expr =
      .failed (selectorFailureMessage sel) := by
    by_cases hsc : sc = some '+'
    · have hasc' : ∀ f, bmessageAscend o f (o.object_getClass tc) sel = none := by
        intro f
        have hf := hasc f
        rwa [if_pos hsc] at hf
      rcases hres with ⟨h, hobj, hcls⟩ | ⟨hobj, h, hto, hcls⟩
      · simp [FBMethodBreakpointCommand_run, hparse, hself, hobj, hcls, htc, hsc, hasc']
      · simp [FBMethodBreakpointCommand_run, hparse, hself, hobj, hto, hcls, htc,
          hsc, hasc']
    · have hasc' : ∀ f, bmessageAscend o f tc sel = none := by
        intro f
        have hf := hasc f
        rwa [if_neg hsc] at hf
      rcases hres with ⟨h, hobj, hcls⟩ | ⟨hobj, h, hto, hcls⟩
      · simp [FBMethodBreakpointCommand_run, hparse, hself, hobj, hcls, htc, hsc, hasc']
      · simp [FBMethodBreakpointCommand_run, hparse, hself, hobj, hto, hcls, htc,
          hsc, hasc']
  refine ⟨hrun, fun d hd => ?_⟩
  rw [hrun] at hd
  exact BmsgOutcome.noConfusion hd

/-- Claim C7, witness: the class-name query on MyView, whose chain 10,
11, null has no implementor while the unrelated class 99 outside the
chain does implement the selector, reports the selector failure. -/
theorem selectorNotFoundNoDirectiveWitness :
    FBMethodBreakpointCommand_run noImplOracle 5 ("-[MyView badSelector]") =
      .failed (selectorFailureMessage ("badSelector")) ∧
    classItselfImplementsSelector noImplOracle 99 ("badSelector") = true := by
  constructor
  · exact (selectorNotFoundNoDirective noImplOracle 5 ("-[MyView badSelector]")
      (some '-') ("MyView") none ("badSelector") ("(id)$arg1") 10 2
      (by decide) rfl
      (Or.inr (And.intro (by decide)
        (Exists.intro 10 (And.intro (by decide) (by decide)))))
      (by decide) (by decide) (by decide)).1
  · decide

/-- Claim C5: for a bmessage query with scope marker plus (class
method) on a target that resolves as a class, the search root of the
hierarchy ascent is the metaclass of the resolved class; when only an
ancestor metaclass mBase (named bn) itself implements the selector,
the owning class is mBase and the issued breakpoint directive guards
on the class of the live self reference being equal to the metaclass
handle of the queried class. -/
theorem classMethodMetaclassResolution (o : BmsgOracle) (fuel : Nat)
    (expr tgt sel selfE : String) (cls meta mBase m : Nat) (bn : String)
    (hparse : methodPatternMatch expr = some (some '+', tgt, none, sel))
    (hself : o.expressionForSelf = some selfE)
    (h1 : o.evalObj ("(" ++ tgt ++ ")") = none)
    (h2 : o.evalObj ("[" ++ tgt ++ " class]") = some cls)
    (h3 : o.evalObj ("[" ++ toString cls ++ " class]") = some cls)
    (hcls0 : cls ≠ 0)
    (hmeta : o.object_getClass cls = meta)
    (hsup : o.class_getSuperclass meta = mBase)
    (him : o.class_getInstanceMethod meta sel = m)
    (himb : o.class_getInstanceMethod mBase sel = m)
    (him0 : o.class_getInstanceMethod (o.class_getSuperclass mBase) sel = 0)
    (hm : m ≠ 0) (hmetapos : 0 < meta) (hmbpos : 0 < mBase)
    (hname : o.class_getName mBase = bn) :
    FBMethodBreakpointCommand_run o (fuel + 2) expr =
      .issued (.byRegex ("+\\[" ++ bn ++ "(\\(.+\\))? " ++ sel ++ "\\]")
        ("(void*)object_getClass(" ++ selfE ++ ") == " ++ toString meta)) := by
  have hmi : classItselfImplementsSelector o meta sel = false := by
    simp [classItselfImplementsSelector, him, hsup, himb]
  have hbi : classItselfImplementsSelector o mBase sel = true := by
    simp [classItselfImplementsSelector, himb, him0, hm]
  have hasc : bmessageAscend o (fuel + 2) meta sel = some mBase := by
    rw [show fuel + 2 = fuel + 1 + 1 from rfl,
      bmessageAscend_succ, if_pos hmetapos, hmi, if_neg (by simp), hsup,
      bmessageAscend_succ, if_pos hmbpos, hbi, if_pos (by simp)]
  simp [FBMethodBreakpointCommand_run, hparse, hself, h1, h2, h3, hcls0,
    hmeta, hasc, hname]

/-- Claim C5, witness: the spec scenario with MyView (class handle 10,
metaclass 20) and ancestor BaseView (metaclass 21, the only
implementor): the issued directive is the class-method regex
breakpoint on BaseView guarded on the metaclass handle 20 of
MyView. -/
theorem classMethodMetaclassResolutionWitness :
    FBMethodBreakpointCommand_run myViewOracle 2 ("+[MyView awesomeClassMethod]") =
      .issued (.byRegex ("+\\[BaseView(\\(.+\\))? awesomeClassMethod\\]")
        ("(void*)object_getClass((id)$arg1) == 20")) := by
  exact classMethodMetaclassResolution myViewOracle 0 ("+[MyView awesomeClassMethod]")
    ("MyView") ("awesomeClassMethod") ("(id)$arg1") 10 20 21 9 ("BaseView")
    (by decide) rfl (by decide) (by decide) (by decide) (by decide) (by decide)
    (by decide) (by decide) (by decide) (by decide) (by decide) (by decide)
    (by decide) (by decide)

/-! ## The guard-condition invariant -/

theorem neEmptyCond1 (selfE t : String) :
    ("(void*)object_getClass(" ++ selfE ++ ") == " ++ t) ≠ "" := by
  intro h
  have hd : ((("(void*)object_getClass(" ++ selfE) ++ ") == ") ++ t).data = [] := by
    rw [h]
  rw [String.data_append, String.data_append, String.data_append] at hd
  simp at hd

theorem neEmptyCond2 (selfE t : String) :
    ("(void*)" ++ selfE ++ " == " ++ t) ≠ "" := by
  intro h
  have hd : ((("(void*)" ++ selfE) ++ " == ") ++ t).data = [] := by
    rw [h]
  rw [String.data_append, String.data_append, String.data_append] at hd
  simp at hd

/-- Claim C6: every directive bmessage issues (the fullname form used
with a category and the regex form used without) carries a non-empty
guard condition of one of the two source shapes, comparing the class
of the live self reference, or the self reference itself, against a
resolved handle; and a binside address directive never carries a
condition. -/
theorem breakpointGuardConditionInvariant :
    (∀ (o : BmsgOracle) (fuel : Nat) (expr : String) (d : Directive),
      FBMethodBreakpointCommand_run o fuel expr = .issued d →
      ∃ selfE cond, o.expressionForSelf = some selfE ∧
        directiveCondition d = some cond ∧ cond ≠ "" ∧
        (∃ t, cond = "(void*)object_getClass(" ++ selfE ++ ") == " ++ t ∨
              cond = "(void*)" ++ selfE ++ " == " ++ t)) ∧
    (∀ (resolveFileAddress : Int → Int) (libraryAddress : Int),
      directiveCondition
        (FBFrameworkAddressBreakpointCommand_run resolveFileAddress libraryAddress) =
          none) := by
  constructor
  · intro o fuel expr d hrun
    unfold FBMethodBreakpointCommand_run at hrun
    split at hrun
    · exact BmsgOutcome.noConfusion hrun
    split at hrun
    · exact BmsgOutcome.noConfusion hrun
    next selfE heqs =>
    refine ⟨selfE, ?_⟩
    repeat
      any_goals
        first
          | split at hrun
          | dsimp only at hrun
    all_goals
      first
        | exact BmsgOutcome.noConfusion hrun
        | (injection hrun with h
           subst h
           exact Exists.intro _ (And.intro heqs (And.intro rfl
             (And.intro (neEmptyCond1 selfE _) (Exists.intro _ (Or.inl rfl))))))
        | (injection hrun with h
           subst h
           exact Exists.intro _ (And.intro heqs (And.intro rfl
             (And.intro (neEmptyCond2 selfE _) (Exists.intro _ (Or.inr rfl))))))
  · intro resolveFileAddress libraryAddress
    rfl

/-- Claim C6, witness: in the instance-target scenario the issued
regex directive carries the instance comparison guard, and a binside
directive carries no condition. -/
theorem breakpointGuardConditionInvariantWitness :
    (∃ selfE cond, instanceOracle.expressionForSelf = some selfE ∧
      directiveCondition (Directive.byRegex ("-\\[UIView(\\(.+\\))? setFrame:\\]")
        ("(void*)(id)$arg1 == 5")) = some cond ∧ cond ≠ "" ∧
      (∃ t, cond = "(void*)object_getClass(" ++ selfE ++ ") == " ++ t ∨
            cond = "(void*)" ++ selfE ++ " == " ++ t)) ∧
    directiveCondition
      (FBFrameworkAddressBreakpointCommand_run (fun a => a + 4096) 16) = none := by
  constructor
  · exact breakpointGuardConditionInvariant.1 instanceOracle 1 ("-[0x1234 setFrame:]")
      (Directive.byRegex ("-\\[UIView(\\(.+\\))? setFrame:\\]")
        ("(void*)(id)$arg1 == 5"))
      (by decide)
  · exact breakpointGuardConditionInvariant.2 (fun a => a + 4096) 16

/-! ## wivar claims -/

/-- Claim C3, counterexample: for a wivar invocation in which the ivar
offset and size round trips both return zero (the ivar does not
exist), the command does not detect the zero result and does not fail
beforehand: a zero-length watch request at the object address is
passed to the debugger. -/
theorem wivarZeroWatchPassedCounterexample :
    FBWatchInstanceVariableCommand_run zeroIvarOracle ("view") ("_missing") =
      ⟨4096, 0, false, true⟩ ∧
    (FBWatchInstanceVariableCommand_run zeroIvarOracle ("view") ("_missing")).size = 0 :=
  ⟨rfl, rfl⟩

/-- Claim C3 (amended): the command performs no zero check and never
fails before the watch request: whenever the offset and size round
trips return zero, the request passed to the debugger is a zero-length
watch at the object address itself; only afterwards is the debugger
error reported. -/
theorem wivarAlwaysForwardsWatchAmended (o : WatchOracle)
    (commandForObject ivarName : String)
    (hoff : o.evaluateExpression
      (ivarOffsetCommand (o.evaluateObjectExpression commandForObject) ivarName) = 0)
    (hsize : o.evaluateExpression
      (ivarSizeCommand (o.evaluateObjectExpression commandForObject) ivarName) = 0) :
    FBWatchInstanceVariableCommand_run o commandForObject ivarName =
      ⟨o.evaluateObjectExpression commandForObject, 0, false, true⟩ := by
  simp [FBWatchInstanceVariableCommand_run, hoff, hsize]

/-- Claim C3, witness for the amended statement. -/
theorem wivarAlwaysForwardsWatchAmendedWitness :
    FBWatchInstanceVariableCommand_run zeroIvarOracle ("obj") ("_ivar") =
      ⟨4096, 0, false, true⟩ := by
  exact wivarAlwaysForwardsWatchAmended zeroIvarOracle ("obj") ("_ivar") rfl rfl

/-! ## findinstances claims -/

/-- Claim C4, counterexample: the escaping transform leaves
backslashes unescaped (its character class matches only the double
quote), so the round trip is not safe for a predicate containing a
backslash: escaping the three-character predicate a backslash b leaves
it unchanged, and the receiving one-level unescape then merges the
backslash with the following character, recovering the two-character
text ab instead of the original. -/
theorem predicateEscapeBackslashCounterexample :
    parseStringLiteralBody (escapePredicateChars ['a', '\\', 'b'] ++ '"' :: []) =
      some (['a', 'b'], []) ∧
    (['a', 'b'] : List Char) ≠ ['a', '\\', 'b'] := ⟨rfl, by decide⟩

/-- Claim C4 (amended): the escaping transform prefixes a backslash
only to double quotes, so the round trip through embedding is safe
exactly for predicates containing no backslash: for every such
predicate, including ones containing double quotes, escaping,
embedding up to the closing quote of the outer string literal, and
parsing back with the one-level unescaping string-literal parser
recovers the original predicate and leaves the rest of the call
intact; a predicate containing a backslash is corrupted. -/
theorem predicateEscapeRoundTripAmended (p rest : List Char)
    (hp : ∀ c ∈ p, c ≠ '\\') :
    parseStringLiteralBody (escapePredicateChars p ++ '"' :: rest) = some (p, rest) := by
  induction p with
  | nil => rfl
  | cons c tl ih =>
    have hc : c ≠ '\\' := hp c (List.mem_cons_self ..)
    have ih' := ih fun d hd => hp d (List.mem_cons_of_mem _ hd)
    by_cases hq : c = '"'
    · subst hq
      rw [escapePredicateChars, if_pos rfl, List.cons_append, List.cons_append,
        parseStringLiteralBody, ih']
      rfl
    · rw [escapePredicateChars, if_neg hq, List.cons_append]
      simp [parseStringLiteralBody, hq, hc, ih']

/-- Claim C4, witness: a predicate containing double quotes but no
backslash survives the round trip. -/
theorem predicateEscapeRoundTripAmendedWitness :
    parseStringLiteralBody
      (escapePredicateChars ['s', 'a', 'y', ' ', '"', 'h', 'i', '"'] ++
        '"' :: [')', ')']) =
      some (['s', 'a', 'y', ' ', '"', 'h', 'i', '"'], [')', ')']) := by
  exact predicateEscapeRoundTripAmended _ _ (by decide)

/-- Claim C9: when the auxiliary library fails to load (module absent,
file present, dlopen null, module still absent), the diagnostic
follows the exact precedence of the source: errno 50 gives the
code-signing message; otherwise a non-null dlerror string is reported;
otherwise a non-zero errno is decoded through strerror and reported;
otherwise the unknown-failure message is reported; and in every such
case the scan request is not forwarded. -/
theorem chiselLoadDiagnosisPrecedence (e : ChiselEnv) (argument : String)
    (hnb : e.moduleLoadedBefore = false)
    (hfs : e.fsExists (chiselLibraryPath e.envPath e.fsExists e.sourceDir) = true)
    (hdl : e.dlopenUnsigned
      (dlopenCall (chiselLibraryPath e.envPath e.fsExists e.sourceDir)) = 0)
    (hna : e.moduleLoadedAfter = false) :
    (loadChiselIfNecessary e).1 = false ∧
    FBFindInstancesCommand_run e argument = none ∧
    (e.errnoValue = 50 →
      (loadChiselIfNecessary e).2 = some codesignErrorMessage) ∧
    (e.errnoValue ≠ 50 → e.dlerrorUnsigned ≠ 0 →
      (loadChiselIfNecessary e).2 =
        some ("Error loading Chisel: " ++ e.dlerrorSummary)) ∧
    (e.errnoValue ≠ 50 → e.dlerrorUnsigned = 0 → e.errnoValue ≠ 0 →
      e.strerrorUnsigned e.errnoValue ≠ 0 →
      (loadChiselIfNecessary e).2 =
        some ("Error loading Chisel: " ++ e.strerrorSummary e.errnoValue)) ∧
    (e.errnoValue ≠ 50 → e.dlerrorUnsigned = 0 → e.errnoValue = 0 →
      (loadChiselIfNecessary e).2 = some unknownLoadErrorMessage) := by
  have hload1 : (loadChiselIfNecessary e).1 = false := by
    unfold loadChiselIfNecessary
    simp only [hnb, hfs, hdl, hna]
    norm_num
    repeat' split
    all_goals rfl
  refine ⟨hload1, ?_, ?_, ?_, ?_, ?_⟩
  · simp [FBFindInstancesCommand_run, hload1]
  · intro h50
    simp [loadChiselIfNecessary, hnb, hfs, hdl, hna, h50]
  · intro h50 hdle
    simp [loadChiselIfNecessary, hnb, hfs, hdl, hna, h50, hdle]
  · intro h50 hdle herr hstr
    simp [loadChiselIfNecessary, hnb, hfs, hdl, hna, h50, hdle, herr, hstr]
  · intro h50 hdle herr
    simp [loadChiselIfNecessary, hnb, hfs, hdl, hna, h50, hdle, herr]

/-- Claim C9, witness: the code-signing scenario (errno 50): the load
fails with the code-signing message and no scan call is forwarded. -/
theorem chiselLoadDiagnosisPrecedenceWitness :
    (loadChiselIfNecessary codesignEnv).1 = false ∧
    FBFindInstancesCommand_run codesignEnv ("UIView") = none ∧
    (loadChiselIfNecessary codesignEnv).2 = some codesignErrorMessage := by
  have h := chiselLoadDiagnosisPrecedence codesignEnv ("UIView") rfl rfl rfl rfl
  exact ⟨h.1, h.2.1, h.2.2.1 rfl⟩

/-- Claim C10: when the environment variable override is set,
chiselLibraryPath returns the override only when it is non-empty and
the path exists at the time of the call; when the override does not
exist on disk, the default path derived from the source directory is
returned instead, with no report about the bad override. -/
theorem chiselLibraryPathEnvOverride (p sourceDir : String) (fsExists : String → Bool) :
    (fsExists p = false →
      chiselLibraryPath (some p) fsExists sourceDir = defaultChiselPath sourceDir) ∧
    (fsExists p = true → p ≠ "" →
      chiselLibraryPath (some p) fsExists sourceDir = p) := by
  constructor
  · intro h
    simp [chiselLibraryPath, h]
  · intro h hp
    simp [chiselLibraryPath, h, hp]

/-- Claim C10, witness: with a file system on which only the path
/tmp/Chisel exists, a set but nonexistent override falls back to the
default path and an existing override is returned. -/
theorem chiselLibraryPathEnvOverrideWitness :
    chiselLibraryPath (some ("/nope/Chisel")) (fun s => s = "/tmp/Chisel")
        ("/opt/chisel/libexec/commands") =
      defaultChiselPath ("/opt/chisel/libexec/commands") ∧
    chiselLibraryPath (some ("/tmp/Chisel")) (fun s => s = "/tmp/Chisel")
        ("/opt/chisel/libexec/commands") = "/tmp/Chisel" := by
  constructor
  · exact (chiselLibraryPathEnvOverride ("/nope/Chisel") _ _).1 (by decide)
  · exact (chiselLibraryPathEnvOverride ("/tmp/Chisel") _ _).2 (by decide) (by decide)
